import Mathlib

/-!
Verification model of `onmt/modules/DeepVariationalTransformer/Inference.py`.

The file shallowly embeds the two modules of that file, `NeuralPrior` and
`NeuralPosterior`, over exact rational arithmetic:

* token ids are integers, hidden vectors are `List ℚ`;
* a per-layer context tensor (`T × B × H` in the torch layout) is a
  `List (List (List ℚ))`;
* the external `TransformerEncoder` backbone (out of scope for the spec) is an
  abstract function parameter of each module, taking the (possibly trimmed)
  token-id batch and the `freeze_embedding` flag and returning the per-layer
  context stack (`return_stack=True`); its second return value is ignored by
  the source and is therefore not modelled;
* the numeric backend's exponential (`torch.exp`, and the exponential inside
  `F.elu`) is an abstract function field `E : ℚ → ℚ` of each module — the only
  fact about the true exponential that any theorem needs (strict positivity) is
  taken as an explicit hypothesis where used;
* a Python `raise` during `__init__` or `forward` is modelled by
  `Except.error`; the `forward` loops index the per-layer module lists with
  the running loop counter, which is modelled by consuming those lists in
  lockstep with the context stack, raising `Except.error "IndexError"`
  exactly when the stack outruns them, as the Python indexing does;
* the `.float()` precision casts are identities here (exact arithmetic).
-/

namespace DVT

/-- Modelled from the spec: the shared padding-id constant
(`onmt.Constants.PAD`; the `onmt/Constants.py` file is not under `src/`;
the spec only requires "a single well-known integer padding id"). -/
def PAD : ℤ := 0

/-- A hidden vector (one position of one batch element), width `model_size`. -/
abbrev Vec := List ℚ

/-- One layer's context tensor in the torch layout `T × B × H`:
outer index time position, then batch element, then hidden coordinate. -/
abbrev Ctx := List (List Vec)

/-- Elementwise vector addition. -/
def vecAdd (u v : Vec) : Vec := List.zipWith (fun a b => a + b) u v

/-- Scalar multiple of a vector. -/
def vecScale (c : ℚ) (v : Vec) : Vec := v.map (fun a => c * a)

/-- Dot product. -/
def dot (u v : Vec) : ℚ := (List.zipWith (fun a b => a * b) u v).sum

/-- Modelled from the spec: `XavierLinear` (`onmt/modules/Transformer/Layers.py`,
not under `src/`); per the spec an indexable "{weight, bias} pair", i.e. an
affine map `v ↦ weight · v + bias`. -/
structure Linear where
  weight : List Vec
  bias : Vec

/-- Apply an affine layer to a single vector. -/
def Linear.apply (L : Linear) (v : Vec) : Vec :=
  List.zipWith (fun a b => a + b) (L.weight.map (fun row => dot row v)) L.bias

/-- Model of the torch primitive `torch.relu`. -/
def relu (x : ℚ) : ℚ := max x 0

/-- Model of the torch primitive `F.elu` (α = 1), in terms of the numeric
backend's exponential `E`: `elu x = x` for `x > 0` and `E x - 1` otherwise. -/
def elu (E : ℚ → ℚ) (x : ℚ) : ℚ := if 0 < x then x else E x - 1

/-- Transpose of a rectangular list of lists (the model of `.transpose(0, 1)`
on a 2-d torch layout, and of reading a `T × B × H` tensor batch-first). -/
def transposeT {α : Type} : List (List α) → List (List α)
  | [] => []
  | [r] => r.map (fun a => [a])
  | r :: rest => List.zipWith (fun a col => a :: col) r (transposeT rest)

/-- `input.eq(onmt.Constants.PAD).transpose(0, 1)`: turn the `B × T` id batch
into a `T × B` boolean mask, true exactly at padding positions.  (The
`.unsqueeze(2)` broadcast dimension needs no counterpart here.) -/
def padMask (input : List (List ℤ)) : List (List Bool) :=
  transposeT (input.map (fun row => row.map (fun t => decide (t = PAD))))

/-- Sum of a list of equal-width vectors (empty list gives the empty vector). -/
def sumVecs : List Vec → Vec
  | [] => []
  | v :: rest => rest.foldl vecAdd v

/-- Masked mean of one batch element's row of per-position vectors:
positions whose mask bit is true are excluded from numerator and denominator. -/
def maskedMeanRow (vs : List Vec) (ms : List Bool) : Vec :=
  let picked := (vs.zip ms).filterMap (fun p => if p.2 then none else some p.1)
  vecScale (1 / (picked.length : ℚ)) (sumVecs picked)

/-- Modelled from the spec: `mean_with_mask_backpropable` from
`onmt/modules/Utilities.py` (not under `src/`): "averaging a sequence of
per-position vectors while excluding padding positions from both the numerator
and the denominator".  Input `ctx : T × B × H` and `mask : T × B` (true at
padding); output `B × H`. -/
def mean_with_mask (ctx : Ctx) (mask : List (List Bool)) : List Vec :=
  List.zipWith maskedMeanRow (transposeT ctx) (transposeT mask)

/-- The configuration surface (`opt`) read by the two modules. -/
structure Options where
  layers : ℕ
  model_size : ℕ
  dropout : ℚ
  var_ignore_first_source_token : Bool
  var_ignore_first_target_token : Bool
  var_posterior_combine : String

/-- `torch.distributions.normal.Normal(mean, std)`: a batch (`B × H`) of
diagonal normal distributions, a pure value object. -/
structure NormalDist where
  mean : List Vec
  std : List Vec

/-- The per-layer distribution construction shared by both modules
(`mean = mean_predictor[i](ctx)`, `log_var = var_predictor[i](ctx)`,
`std = torch.exp(0.5 * log_var)`, then `Normal(mean.float(), std.float())`). -/
def layerNormal (E : ℚ → ℚ) (mp vp : Linear) (ctx : List Vec) : NormalDist :=
  ⟨ctx.map mp.apply,
   (ctx.map vp.apply).map (fun w => w.map (fun x => E (1 / 2 * x)))⟩

/-- The prior's residual refinement of one layer's context, per position and
batch element: `torch.relu(context_projector[i](context_)) + context_`. -/
def refineCtx (cp : Linear) (ctx : Ctx) : Ctx :=
  ctx.map (fun row => row.map (fun v => vecAdd ((cp.apply v).map relu) v))

/-- `class NeuralPrior(nn.Module)`: its configuration, numeric backend,
encoder backbone, and the three per-layer `nn.ModuleList`s built by
`__init__`.  (The `self.projector` module list of the source stays empty and
is never read, so it is not carried.) -/
structure NeuralPrior where
  opt : Options
  E : ℚ → ℚ
  encoder : List (List ℤ) → Bool → List Ctx
  context_projector : List Linear
  mean_predictor : List Linear
  var_predictor : List Linear

/-- `NeuralPrior.__init__`: stores the options and appends, for
`i in range(opt.layers)`, one mean predictor, one var predictor and one
context projector (`mk*` supplies layer `i`'s freshly initialised weights).
The body contains no `raise`, so construction always succeeds. -/
def NeuralPrior.init (opt : Options) (E : ℚ → ℚ)
    (encoder : List (List ℤ) → Bool → List Ctx)
    (mkMean mkVar mkCtx : ℕ → Linear) : Except String NeuralPrior :=
  .ok ⟨opt, E, encoder,
       (List.range opt.layers).map mkCtx,
       (List.range opt.layers).map mkMean,
       (List.range opt.layers).map mkVar⟩

/-- The prior's `for i, context_ in enumerate(context_stack)` loop.  The
Python loop walks the stack while indexing `self.context_projector[i]`,
`self.mean_predictor[i]`, `self.var_predictor[i]`; this is modelled by
consuming the three module lists in lockstep with the stack, which errors
(`IndexError`) exactly when the stack is longer than the module lists, as in
Python. -/
def priorLoop (E : ℚ → ℚ) (mask : List (List Bool)) :
    List Ctx → List Linear → List Linear → List Linear →
    Except String (List (List Vec) × List NormalDist)
  | [], _, _, _ => .ok ([], [])
  | ctx :: rest, cp :: cps, mp :: mps, vp :: vps =>
    let pooled := mean_with_mask (refineCtx cp ctx) mask
    match priorLoop E mask rest cps mps vps with
    | .ok (ems, pzs) => .ok (pooled :: ems, layerNormal E mp vp pooled :: pzs)
    | .error e => .error e
  | _ :: _, _, _, _ => .error "IndexError"

/-- The trimming at the top of `NeuralPrior.forward`:
`if self.var_ignore_first_source_token: input = input[:,1:]`. -/
def NeuralPrior.trimmedInput (p : NeuralPrior) (input : List (List ℤ)) :
    List (List ℤ) :=
  if p.opt.var_ignore_first_source_token then input.map (fun r => r.tail)
  else input

/-- Everything in `NeuralPrior.forward` after the trimming: run the backbone
on the (trimmed) input with `freeze_embedding=False, return_stack=True`,
derive the padding mask from the same input, and run the per-layer loop.
`context` is the second positional parameter of the Python `forward`; it is
never read (the local name is rebound inside the loop before any use). -/
def NeuralPrior.forwardBody (p : NeuralPrior) (input : List (List ℤ))
    (context : List Vec) :
    Except String (List (List Vec) × List NormalDist) :=
  priorLoop p.E (padMask input) (p.encoder input false)
    p.context_projector p.mean_predictor p.var_predictor

/-- `NeuralPrior.forward(input, context)`: trim, then the body; returns
`(encoder_meaning, p_z)`. -/
def NeuralPrior.forward (p : NeuralPrior) (input : List (List ℤ))
    (context : List Vec) :
    Except String (List (List Vec) × List NormalDist) :=
  p.forwardBody (p.trimmedInput input) context

/-- `class NeuralPosterior(nn.Module)`: configuration, numeric backend,
encoder backbone and the three per-layer module lists built by `__init__`. -/
structure NeuralPosterior where
  opt : Options
  E : ℚ → ℚ
  encoder : List (List ℤ) → Bool → List Ctx
  projector : List Linear
  mean_predictor : List Linear
  var_predictor : List Linear

/-- The `for i in range(self.opt.layers)` loop of `NeuralPosterior.__init__`:
for each layer, append a projector when `var_posterior_combine` is
`"concat"` or `"sum"` (both branches build the same `D → D` layer), otherwise
`raise NotImplementedError` (a bare signal: the Python source attaches no
message naming the mode); then append the mean and var predictors. -/
def posteriorInitLoop (combine : String) (mkProj mkMean mkVar : ℕ → Linear) :
    List ℕ → Except String (List Linear × List Linear × List Linear)
  | [] => .ok ([], [], [])
  | i :: rest =>
    match (if combine = "concat" then Except.ok (mkProj i)
           else if combine = "sum" then Except.ok (mkProj i)
           else Except.error "NotImplementedError") with
    | .error e => .error e
    | .ok pj =>
      match posteriorInitLoop combine mkProj mkMean mkVar rest with
      | .error e => .error e
      | .ok (pjs, mps, vps) => .ok (pj :: pjs, mkMean i :: mps, mkVar i :: vps)

/-- `NeuralPosterior.__init__`: build the backbone and run the per-layer
construction loop; a `NotImplementedError` raised inside the loop aborts
construction. -/
def NeuralPosterior.init (opt : Options) (E : ℚ → ℚ)
    (encoder : List (List ℤ) → Bool → List Ctx)
    (mkProj mkMean mkVar : ℕ → Linear) : Except String NeuralPosterior :=
  match posteriorInitLoop opt.var_posterior_combine mkProj mkMean mkVar
      (List.range opt.layers) with
  | .error e => .error e
  | .ok (pjs, mps, vps) => .ok ⟨opt, E, encoder, pjs, mps, vps⟩

/-- The posterior's `for i, decoder_context_ in enumerate(decoder_context)`
loop: pool the layer's target context under the target mask, pass it through
`F.elu(self.projector[i](...))`, and build the layer's normal distribution.
Module-list indexing is modelled in lockstep, as in `priorLoop`. -/
def posteriorLoop (E : ℚ → ℚ) (mask : List (List Bool)) :
    List Ctx → List Linear → List Linear → List Linear →
    Except String (List NormalDist)
  | [], _, _, _ => .ok []
  | ctx :: rest, pj :: pjs, mp :: mps, vp :: vps =>
    let pooled := mean_with_mask ctx mask
    let combined := pooled.map (fun v => (pj.apply v).map (elu E))
    match posteriorLoop E mask rest pjs mps vps with
    | .ok qs => .ok (layerNormal E mp vp combined :: qs)
    | .error e => .error e
  | _ :: _, _, _, _ => .error "IndexError"

/-- The target trimming at the top of `NeuralPosterior.forward`:
`if self.var_ignore_first_target_token: input_tgt = input_tgt[:,1:]`. -/
def NeuralPosterior.trimmedTgt (q : NeuralPosterior) (tgt : List (List ℤ)) :
    List (List ℤ) :=
  if q.opt.var_ignore_first_target_token then tgt.map (fun r => r.tail)
  else tgt

/-- Everything in `NeuralPosterior.forward` after the input trimming: run the
backbone on the (trimmed) target with `freeze_embedding=True,
return_stack=True`, derive the target padding mask from the same (trimmed)
target, and run the per-layer loop.  Only the target drives the output. -/
def NeuralPosterior.forwardBody (q : NeuralPosterior)
    (input_tgt : List (List ℤ)) : Except String (List NormalDist) :=
  posteriorLoop q.E (padMask input_tgt) (q.encoder input_tgt true)
    q.projector q.mean_predictor q.var_predictor

/-- `NeuralPosterior.forward(encoder_meaning, input_src, input_tgt)`:
`encoder_meaning` is accepted but never read; `input_src` is trimmed when
`var_ignore_first_source_token` is set but the trimmed value is dead (the
source-mask line of the Python source is commented out); only `input_tgt`
reaches the body.  Returns the `q_z` list. -/
def NeuralPosterior.forward (q : NeuralPosterior)
    (encoder_meaning : List (List Vec)) (input_src input_tgt : List (List ℤ)) :
    Except String (List NormalDist) :=
  let _input_src :=
    if q.opt.var_ignore_first_source_token then input_src.map (fun r => r.tail)
    else input_src
  q.forwardBody (q.trimmedTgt input_tgt)

/-! ### Concrete instances (tiny models used to exercise the definitions) -/

/-- A 1×1 affine layer with zero weight and zero bias. -/
def zLin : Linear := ⟨[[0]], [0]⟩

/-- A constant layer-parameter family. -/
def mkZ : ℕ → Linear := fun _ => zLin

/-- A positive numeric backend (stands in for the strictly positive `exp`). -/
def oneE : ℚ → ℚ := fun _ => 1

/-- A backbone returning a one-layer stack (`T = B = H = 1`, all zeros). -/
def enc1 : List (List ℤ) → Bool → List Ctx := fun _ _ => [[[[0]]]]

/-- A backbone returning a two-layer stack of the same shape. -/
def enc2 : List (List ℤ) → Bool → List Ctx := fun _ _ => [[[[0]]], [[[0]]]]

/-- Base configuration: one layer, width one, no trimming, `sum` combine. -/
def optB : Options := ⟨1, 1, 0, false, false, "sum"⟩

/-- Base configuration with `var_ignore_first_source_token = true`. -/
def optSrcTrim : Options := ⟨1, 1, 0, true, false, "sum"⟩

/-- Base configuration with `var_ignore_first_target_token = true`. -/
def optTgtTrim : Options := ⟨1, 1, 0, false, true, "sum"⟩

/-- Base configuration with an unsupported combine mode. -/
def optBogus : Options := ⟨1, 1, 0, false, false, "bogus"⟩

/-- Zero-layer configuration with an unsupported combine mode. -/
def optBogus0 : Options := ⟨0, 1, 0, false, false, "bogus"⟩

/-- Two-layer base configuration. -/
def opt2 : Options := ⟨2, 1, 0, false, false, "sum"⟩

/-- The prior built by `NeuralPrior.init` from the base configuration. -/
def priorB : NeuralPrior := ⟨optB, oneE, enc1, [zLin], [zLin], [zLin]⟩

/-- The posterior built by `NeuralPosterior.init` from the base configuration. -/
def postB : NeuralPosterior := ⟨optB, oneE, enc1, [zLin], [zLin], [zLin]⟩

/-- A prior whose source-trimming flag is set. -/
def priorSrcTrim : NeuralPrior := ⟨optSrcTrim, oneE, enc1, [zLin], [zLin], [zLin]⟩

/-- A posterior whose target-trimming flag is set. -/
def postTgtTrim : NeuralPosterior := ⟨optTgtTrim, oneE, enc1, [zLin], [zLin], [zLin]⟩

/-- A two-layer prior whose backbone returns only one layer (stack shorter
than the configured layer count). -/
def priorShort : NeuralPrior := ⟨opt2, oneE, enc1, [zLin, zLin], [zLin, zLin], [zLin, zLin]⟩

/-- A one-layer prior whose backbone returns two layers (stack longer than
the configured layer count). -/
def priorLong : NeuralPrior := ⟨optB, oneE, enc2, [zLin], [zLin], [zLin]⟩

/-- The prior that `NeuralPrior.init` happily builds from the unsupported
combine mode (its `__init__` never inspects `var_posterior_combine`). -/
def priorBogus : NeuralPrior := ⟨optBogus, oneE, enc1, [zLin], [zLin], [zLin]⟩

/-! ### Loop lemmas -/

/-- When the stack is no longer than each module list, the prior's layer loop
succeeds and produces one pooled vector and one distribution per stack layer. -/
theorem priorLoop_ok_of_le (E : ℚ → ℚ) (mask : List (List Bool)) :
    ∀ (stack : List Ctx) (cps mps vps : List Linear),
      stack.length ≤ cps.length → stack.length ≤ mps.length →
      stack.length ≤ vps.length →
      ∃ em pz, priorLoop E mask stack cps mps vps = .ok (em, pz) ∧
        em.length = stack.length ∧ pz.length = stack.length := by
  intro stack
  induction stack with
  | nil => exact fun _ _ _ _ _ _ => ⟨[], [], rfl, rfl, rfl⟩
  | cons ctx rest ih =>
    intro cps mps vps h1 h2 h3
    cases cps with
    | nil => simp at h1
    | cons cp cps =>
      cases mps with
      | nil => simp at h2
      | cons mp mps =>
        cases vps with
        | nil => simp at h3
        | cons vp vps =>
          obtain ⟨em, pz, hloop, hl1, hl2⟩ := ih cps mps vps
            (by simpa using h1) (by simpa using h2) (by simpa using h3)
          refine ⟨mean_with_mask (refineCtx cp ctx) mask :: em,
            layerNormal E mp vp (mean_with_mask (refineCtx cp ctx) mask) :: pz,
            ?_, ?_, ?_⟩
          · simp [priorLoop, hloop]
          · simp [hl1]
          · simp [hl2]

/-- When the stack is strictly longer than one of the module lists, the
prior's layer loop raises the index error. -/
theorem priorLoop_error_of_lt (E : ℚ → ℚ) (mask : List (List Bool)) :
    ∀ (stack : List Ctx) (cps mps vps : List Linear),
      (cps.length < stack.length ∨ mps.length < stack.length ∨
        vps.length < stack.length) →
      priorLoop E mask stack cps mps vps = .error "IndexError" := by
  intro stack
  induction stack with
  | nil => intro cps mps vps h; simp at h
  | cons ctx rest ih =>
    intro cps mps vps h
    cases cps with
    | nil => simp [priorLoop]
    | cons cp cps =>
      cases mps with
      | nil => simp [priorLoop]
      | cons mp mps =>
        cases vps with
        | nil => simp [priorLoop]
        | cons vp vps =>
          have hrec : priorLoop E mask rest cps mps vps = .error "IndexError" := by
            apply ih
            simp at h
            omega
          simp [priorLoop, hrec]

/-- Index-wise description of a successful prior layer loop: layer `j` of the
output records the masked mean of the residual-refined `j`-th context, and its
distribution is built from exactly that pooled vector. -/
theorem priorLoop_get (E : ℚ → ℚ) (mask : List (List Bool)) :
    ∀ (stack : List Ctx) (cps mps vps : List Linear)
      (em : List (List Vec)) (pz : List NormalDist),
      priorLoop E mask stack cps mps vps = .ok (em, pz) →
      ∀ (j : ℕ) (ctxj : Ctx), stack[j]? = some ctxj →
      ∃ cp mp vp,
        cps[j]? = some cp ∧ mps[j]? = some mp ∧ vps[j]? = some vp ∧
        em[j]? = some (mean_with_mask (refineCtx cp ctxj) mask) ∧
        pz[j]? =
          some (layerNormal E mp vp (mean_with_mask (refineCtx cp ctxj) mask)) := by
  intro stack
  induction stack with
  | nil => intro cps mps vps em pz _ j ctxj hj; simp at hj
  | cons ctx rest ih =>
    intro cps mps vps em pz hloop j ctxj hj
    cases cps with
    | nil => simp [priorLoop] at hloop
    | cons cp cps =>
      cases mps with
      | nil => simp [priorLoop] at hloop
      | cons mp mps =>
        cases vps with
        | nil => simp [priorLoop] at hloop
        | cons vp vps =>
          cases hrec : priorLoop E mask rest cps mps vps with
          | error e => simp [priorLoop, hrec] at hloop
          | ok pr =>
            obtain ⟨em', pz'⟩ := pr
            simp only [priorLoop, hrec] at hloop
            obtain ⟨hem, hpz⟩ := Prod.mk.injEq .. ▸ (Except.ok.inj hloop)
            cases j with
            | zero =>
              obtain rfl : ctx = ctxj := by simpa using hj
              exact ⟨cp, mp, vp, by simp, by simp, by simp,
                by simp [← hem], by simp [← hpz]⟩
            | succ j =>
              have hj' : rest[j]? = some ctxj := by simpa using hj
              obtain ⟨cp', mp', vp', h1, h2, h3, h4, h5⟩ :=
                ih cps mps vps em' pz' hrec j ctxj hj'
              exact ⟨cp', mp', vp', by simpa using h1, by simpa using h2,
                by simpa using h3, by simp [← hem, h4], by simp [← hpz, h5]⟩

/-- Every distribution emitted by the prior's layer loop is one of the
`layerNormal`s built from a pooled, residual-refined context. -/
theorem priorLoop_mem (E : ℚ → ℚ) (mask : List (List Bool)) :
    ∀ (stack : List Ctx) (cps mps vps : List Linear)
      (em : List (List Vec)) (pz : List NormalDist),
      priorLoop E mask stack cps mps vps = .ok (em, pz) →
      ∀ d ∈ pz, ∃ cp mp vp ctx,
        d = layerNormal E mp vp (mean_with_mask (refineCtx cp ctx) mask) := by
  intro stack
  induction stack with
  | nil =>
    intro cps mps vps em pz hloop d hd
    obtain ⟨hem, hpz⟩ := Prod.mk.injEq .. ▸ (Except.ok.inj hloop)
    rw [← hpz] at hd
    simp at hd
  | cons ctx rest ih =>
    intro cps mps vps em pz hloop d hd
    cases cps with
    | nil => simp [priorLoop] at hloop
    | cons cp cps =>
      cases mps with
      | nil => simp [priorLoop] at hloop
      | cons mp mps =>
        cases vps with
        | nil => simp [priorLoop] at hloop
        | cons vp vps =>
          cases hrec : priorLoop E mask rest cps mps vps with
          | error e => simp [priorLoop, hrec] at hloop
          | ok pr =>
            obtain ⟨em', pz'⟩ := pr
            simp only [priorLoop, hrec] at hloop
            obtain ⟨_, hpz⟩ := Prod.mk.injEq .. ▸ (Except.ok.inj hloop)
            rw [← hpz] at hd
            rcases List.mem_cons.mp hd with hd0 | hdr
            · exact ⟨cp, mp, vp, ctx, hd0.symm ▸ rfl⟩
            · exact ih cps mps vps em' pz' hrec d hdr

/-- When the stack is no longer than each module list, the posterior's layer
loop succeeds and produces one distribution per stack layer. -/
theorem posteriorLoop_ok_of_le (E : ℚ → ℚ) (mask : List (List Bool)) :
    ∀ (stack : List Ctx) (pjs mps vps : List Linear),
      stack.length ≤ pjs.length → stack.length ≤ mps.length →
      stack.length ≤ vps.length →
      ∃ qz, posteriorLoop E mask stack pjs mps vps = .ok qz ∧
        qz.length = stack.length := by
  intro stack
  induction stack with
  | nil => exact fun _ _ _ _ _ _ => ⟨[], rfl, rfl⟩
  | cons ctx rest ih =>
    intro pjs mps vps h1 h2 h3
    cases pjs with
    | nil => simp at h1
    | cons pj pjs =>
      cases mps with
      | nil => simp at h2
      | cons mp mps =>
        cases vps with
        | nil => simp at h3
        | cons vp vps =>
          obtain ⟨qz, hloop, hl⟩ := ih pjs mps vps
            (by simpa using h1) (by simpa using h2) (by simpa using h3)
          refine ⟨layerNormal E mp vp
            ((mean_with_mask ctx mask).map (fun v => (pj.apply v).map (elu E)))
            :: qz, ?_, ?_⟩
          · simp [posteriorLoop, hloop]
          · simp [hl]

/-- When the stack is strictly longer than one of the module lists, the
posterior's layer loop raises the index error. -/
theorem posteriorLoop_error_of_lt (E : ℚ → ℚ) (mask : List (List Bool)) :
    ∀ (stack : List Ctx) (pjs mps vps : List Linear),
      (pjs.length < stack.length ∨ mps.length < stack.length ∨
        vps.length < stack.length) →
      posteriorLoop E mask stack pjs mps vps = .error "IndexError" := by
  intro stack
  induction stack with
  | nil => intro pjs mps vps h; simp at h
  | cons ctx rest ih =>
    intro pjs mps vps h
    cases pjs with
    | nil => simp [posteriorLoop]
    | cons pj pjs =>
      cases mps with
      | nil => simp [posteriorLoop]
      | cons mp mps =>
        cases vps with
        | nil => simp [posteriorLoop]
        | cons vp vps =>
          have hrec : posteriorLoop E mask rest pjs mps vps =
              .error "IndexError" := by
            apply ih
            simp at h
            omega
          simp [posteriorLoop, hrec]

/-- Every distribution emitted by the posterior's layer loop is a
`layerNormal` built from the elu-combined masked mean of one stack layer. -/
theorem posteriorLoop_mem (E : ℚ → ℚ) (mask : List (List Bool)) :
    ∀ (stack : List Ctx) (pjs mps vps : List Linear)
      (qz : List NormalDist),
      posteriorLoop E mask stack pjs mps vps = .ok qz →
      ∀ d ∈ qz, ∃ (pj mp vp : Linear) (ctx : Ctx),
        d = layerNormal E mp vp
          ((mean_with_mask ctx mask).map (fun v => (pj.apply v).map (elu E))) := by
  intro stack
  induction stack with
  | nil =>
    intro pjs mps vps qz hloop d hd
    rw [← Except.ok.inj hloop] at hd
    simp at hd
  | cons ctx rest ih =>
    intro pjs mps vps qz hloop d hd
    cases pjs with
    | nil => simp [posteriorLoop] at hloop
    | cons pj pjs =>
      cases mps with
      | nil => simp [posteriorLoop] at hloop
      | cons mp mps =>
        cases vps with
        | nil => simp [posteriorLoop] at hloop
        | cons vp vps =>
          cases hrec : posteriorLoop E mask rest pjs mps vps with
          | error e => simp [posteriorLoop, hrec] at hloop
          | ok qs =>
            simp only [posteriorLoop, hrec] at hloop
            rw [← Except.ok.inj hloop] at hd
            rcases List.mem_cons.mp hd with hd0 | hdr
            · exact ⟨pj, mp, vp, ctx, hd0⟩
            · exact ih pjs mps vps qs hrec d hdr

/-! ### Construction-loop lemmas -/

/-- With a recognized combine mode, the posterior's construction loop
succeeds and builds one projector, one mean predictor and one var predictor
per visited index. -/
theorem posteriorInitLoop_ok (combine : String)
    (mkProj mkMean mkVar : ℕ → Linear)
    (hc : combine = "concat" ∨ combine = "sum") :
    ∀ is : List ℕ,
      posteriorInitLoop combine mkProj mkMean mkVar is =
        .ok (is.map mkProj, is.map mkMean, is.map mkVar) := by
  intro is
  induction is with
  | nil => rfl
  | cons i rest ih =>
    rcases hc with hc | hc <;> subst hc <;>
      simp [posteriorInitLoop, ih]

/-- With an unrecognized combine mode, the posterior's construction loop
raises `NotImplementedError` on its first iteration. -/
theorem posteriorInitLoop_error (combine : String)
    (mkProj mkMean mkVar : ℕ → Linear)
    (hc1 : combine ≠ "concat") (hc2 : combine ≠ "sum")
    (i : ℕ) (rest : List ℕ) :
    posteriorInitLoop combine mkProj mkMean mkVar (i :: rest) =
      .error "NotImplementedError" := by
  simp [posteriorInitLoop, hc1, hc2]

/-- Whenever the posterior's construction loop succeeds, the three module
lists it returns all have one entry per visited index. -/
theorem posteriorInitLoop_lengths (combine : String)
    (mkProj mkMean mkVar : ℕ → Linear) :
    ∀ (is : List ℕ) (pjs mps vps : List Linear),
      posteriorInitLoop combine mkProj mkMean mkVar is = .ok (pjs, mps, vps) →
      pjs.length = is.length ∧ mps.length = is.length ∧
        vps.length = is.length := by
  intro is pjs mps vps h
  by_cases hc1 : combine = "concat"
  · rw [posteriorInitLoop_ok combine mkProj mkMean mkVar (Or.inl hc1) is] at h
    simp only [Except.ok.injEq, Prod.mk.injEq] at h
    obtain ⟨h1, h2, h3⟩ := h
    subst h1; subst h2; subst h3
    simp
  · by_cases hc2 : combine = "sum"
    · rw [posteriorInitLoop_ok combine mkProj mkMean mkVar (Or.inr hc2) is] at h
      simp only [Except.ok.injEq, Prod.mk.injEq] at h
      obtain ⟨h1, h2, h3⟩ := h
      subst h1; subst h2; subst h3
      simp
    · cases is with
      | nil =>
        simp only [posteriorInitLoop, Except.ok.injEq, Prod.mk.injEq] at h
        obtain ⟨h1, h2, h3⟩ := h
        subst h1; subst h2; subst h3
        simp
      | cons i rest =>
        rw [posteriorInitLoop_error combine mkProj mkMean mkVar hc1 hc2] at h
        exact absurd h (by simp)

/-! ### Claim theorems -/

/-- Claim C2: for every layer context and every batch element, masked mean pooling
over a trimmed length-4 input whose positions 0 and 1 are real tokens and
whose positions 2 and 3 are padding yields exactly the unweighted arithmetic
mean of the position-0 and position-1 vectors, for any values at the padded
positions. -/
theorem claim_C2_masked_pooling
    (a0 b0 a1 b1 : ℤ) (h0 : a0 ≠ PAD) (h1 : b0 ≠ PAD)
    (h2 : a1 ≠ PAD) (h3 : b1 ≠ PAD)
    (v0 v1 v2 v3 w0 w1 w2 w3 : Vec) :
    mean_with_mask [[v0, w0], [v1, w1], [v2, w2], [v3, w3]]
        (padMask [[a0, b0, PAD, PAD], [a1, b1, PAD, PAD]]) =
      [vecScale (1 / 2) (vecAdd v0 v1), vecScale (1 / 2) (vecAdd w0 w1)] := by
  have hm : padMask [[a0, b0, PAD, PAD], [a1, b1, PAD, PAD]] =
      [[false, false], [false, false], [true, true], [true, true]] := by
    simp [padMask, transposeT, h0, h1, h2, h3]
  rw [hm]
  simp [mean_with_mask, transposeT, maskedMeanRow, sumVecs]

/-- Witness for C2 at concrete inputs. -/
theorem claim_C2_witness :
    (1 : ℤ) ≠ PAD ∧
    mean_with_mask [[[1], [10]], [[3], [20]], [[5], [30]], [[7], [40]]]
        (padMask [[1, 1, PAD, PAD], [1, 1, PAD, PAD]]) =
      [vecScale (1 / 2) (vecAdd [1] [3]), vecScale (1 / 2) (vecAdd [10] [20])] :=
  ⟨by decide,
   claim_C2_masked_pooling 1 1 1 1 (by decide) (by decide) (by decide) (by decide)
     [1] [3] [5] [7] [10] [20] [30] [40]⟩

/-- Claim C6: the `q_z` list returned by `NeuralPosterior.forward` is identical
across every choice of the `encoder_meaning` and `input_src` arguments; only
`input_tgt` affects the result. -/
theorem claim_C6_posterior_ignores_side_inputs
    (q : NeuralPosterior) (em em' : List (List Vec))
    (src src' tgt : List (List ℤ)) :
    q.forward em src tgt = q.forward em' src' tgt := rfl

/-- Claim C10: the `context` parameter of `NeuralPrior.forward` is overwritten
before it is ever read, so the returned `(encoder_meaning, p_z)` pair is
identical for every value of that argument. -/
theorem claim_C10_context_arg_unused
    (p : NeuralPrior) (input : List (List ℤ)) (c c' : List Vec) :
    p.forward input c = p.forward input c' := rfl

/-- Claim C9: with `opt.layers = 0` the posterior's construction loop never runs,
so `NeuralPosterior.__init__` succeeds for every `var_posterior_combine`
value, including unsupported ones. -/
theorem claim_C9_zero_layers_no_validation
    (opt : Options) (E : ℚ → ℚ)
    (encoder : List (List ℤ) → Bool → List Ctx)
    (mkPj mkM mkV : ℕ → Linear)
    (h0 : opt.layers = 0) :
    NeuralPosterior.init opt E encoder mkPj mkM mkV =
      .ok ⟨opt, E, encoder, [], [], []⟩ := by
  simp [NeuralPosterior.init, h0, posteriorInitLoop]

/-- Witness for C9: a zero-layer configuration with an unsupported combine
mode still constructs. -/
theorem claim_C9_witness :
    optBogus0.layers = 0 ∧
    optBogus0.var_posterior_combine = "bogus" ∧
    NeuralPosterior.init optBogus0 oneE enc1 mkZ mkZ mkZ =
      .ok ⟨optBogus0, oneE, enc1, [], [], []⟩ :=
  ⟨rfl, rfl, claim_C9_zero_layers_no_validation optBogus0 oneE enc1 mkZ mkZ mkZ rfl⟩

/-- Claim C5 counterexample: as stated, the claim requires construction of each
component to fail on an unsupported `var_posterior_combine`; but
`NeuralPrior.__init__` never inspects that option and constructs fine. -/
theorem claim_C5_counterexample :
    optBogus.var_posterior_combine = "bogus" ∧ 0 < optBogus.layers ∧
    NeuralPrior.init optBogus oneE enc1 mkZ mkZ mkZ = .ok priorBogus :=
  ⟨rfl, Nat.one_pos, rfl⟩

/-- Claim C5 amended: an unsupported `var_posterior_combine` value (with at least
one layer configured) makes `NeuralPosterior.__init__` fail eagerly at build
time with a bare `NotImplementedError` (which does not name the mode), while
`NeuralPrior.__init__` performs no combine-mode check and succeeds. -/
theorem claim_C5_amended
    (opt : Options) (E : ℚ → ℚ)
    (encP encQ : List (List ℤ) → Bool → List Ctx)
    (mkM mkV mkC mkPj mkM2 mkV2 : ℕ → Linear)
    (hc1 : opt.var_posterior_combine ≠ "concat")
    (hc2 : opt.var_posterior_combine ≠ "sum")
    (hl : 0 < opt.layers) :
    NeuralPosterior.init opt E encQ mkPj mkM2 mkV2 =
      .error "NotImplementedError" ∧
    ∃ p, NeuralPrior.init opt E encP mkM mkV mkC = .ok p := by
  constructor
  · obtain ⟨n, hn⟩ : ∃ n, opt.layers = n + 1 := ⟨opt.layers - 1, by omega⟩
    have hr : List.range opt.layers = 0 :: (List.range n).map Nat.succ := by
      rw [hn, List.range_succ_eq_map]
    rw [NeuralPosterior.init, hr,
      posteriorInitLoop_error opt.var_posterior_combine mkPj mkM2 mkV2 hc1 hc2]
  · exact ⟨_, rfl⟩

/-- Witness for the amended C5 at the concrete unsupported mode. -/
theorem claim_C5_witness :
    optBogus.var_posterior_combine ≠ "concat" ∧
    optBogus.var_posterior_combine ≠ "sum" ∧
    0 < optBogus.layers ∧
    (NeuralPosterior.init optBogus oneE enc1 mkZ mkZ mkZ =
        .error "NotImplementedError" ∧
      ∃ p, NeuralPrior.init optBogus oneE enc1 mkZ mkZ mkZ = .ok p) :=
  ⟨by decide, by decide, Nat.one_pos,
   claim_C5_amended optBogus oneE enc1 enc1 mkZ mkZ mkZ mkZ mkZ mkZ
     (by decide) (by decide) Nat.one_pos⟩

/-- Claim C1: when the backbone returns a per-layer context stack of length
`opt.layers`, `NeuralPrior.forward` returns an `encoder_meaning` list and a
`p_z` list of length exactly `opt.layers`, and `NeuralPosterior.forward`
returns a `q_z` list of length exactly `opt.layers`. -/
theorem claim_C1_layer_alignment
    (opt : Options) (E : ℚ → ℚ)
    (encP encQ : List (List ℤ) → Bool → List Ctx)
    (mkM mkV mkC mkPj mkM2 mkV2 : ℕ → Linear)
    (p : NeuralPrior) (q : NeuralPosterior)
    (input : List (List ℤ)) (context : List Vec)
    (em' : List (List Vec)) (src tgt : List (List ℤ))
    (hp : NeuralPrior.init opt E encP mkM mkV mkC = .ok p)
    (hq : NeuralPosterior.init opt E encQ mkPj mkM2 mkV2 = .ok q)
    (hps : (p.encoder (p.trimmedInput input) false).length = opt.layers)
    (hqs : (q.encoder (q.trimmedTgt tgt) true).length = opt.layers) :
    (∃ em pz, p.forward input context = .ok (em, pz) ∧
      em.length = opt.layers ∧ pz.length = opt.layers) ∧
    (∃ qz, q.forward em' src tgt = .ok qz ∧ qz.length = opt.layers) := by
  constructor
  · obtain rfl : (⟨opt, E, encP, (List.range opt.layers).map mkC,
        (List.range opt.layers).map mkM,
        (List.range opt.layers).map mkV⟩ : NeuralPrior) = p :=
      Except.ok.inj hp
    obtain ⟨em, pz, hloop, hl1, hl2⟩ :=
      priorLoop_ok_of_le E (padMask (NeuralPrior.trimmedInput _ input))
        (encP (NeuralPrior.trimmedInput _ input) false)
        ((List.range opt.layers).map mkC)
        ((List.range opt.layers).map mkM)
        ((List.range opt.layers).map mkV)
        (by simpa using Nat.le_of_eq hps) (by simpa using Nat.le_of_eq hps)
        (by simpa using Nat.le_of_eq hps)
    refine ⟨em, pz, ?_, ?_, ?_⟩
    · simpa [NeuralPrior.forward, NeuralPrior.forwardBody] using hloop
    · rw [hl1]; exact hps
    · rw [hl2]; exact hps
  · rcases hql : posteriorInitLoop opt.var_posterior_combine mkPj mkM2 mkV2
        (List.range opt.layers) with e | pr
    · rw [NeuralPosterior.init, hql] at hq
      exact absurd hq (by simp)
    · obtain ⟨pjs, mps, vps⟩ := pr
      rw [NeuralPosterior.init, hql] at hq
      obtain rfl : (⟨opt, E, encQ, pjs, mps, vps⟩ : NeuralPosterior) = q :=
        Except.ok.inj hq
      obtain ⟨hpl, hml, hvl⟩ :=
        posteriorInitLoop_lengths opt.var_posterior_combine mkPj mkM2 mkV2
          (List.range opt.layers) pjs mps vps hql

      obtain ⟨qz, hloop, hl⟩ :=
        posteriorLoop_ok_of_le E (padMask (NeuralPosterior.trimmedTgt _ tgt))
          (encQ (NeuralPosterior.trimmedTgt _ tgt) true) pjs mps vps
          (by simp only [hpl, List.length_range]; exact Nat.le_of_eq hqs)
          (by simp only [hml, List.length_range]; exact Nat.le_of_eq hqs)
          (by simp only [hvl, List.length_range]; exact Nat.le_of_eq hqs)
      refine ⟨qz, ?_, ?_⟩
      · simpa [NeuralPosterior.forward, NeuralPosterior.forwardBody] using hloop
      · rw [hl]; exact hqs

/-- Witness for C1: the base one-layer prior and posterior, built by
`init`, each return singleton output lists on a one-token batch. -/
theorem claim_C1_witness :
    (∃ em pz, priorB.forward [[1]] [] = .ok (em, pz) ∧
      em.length = optB.layers ∧ pz.length = optB.layers) ∧
    (∃ qz, postB.forward [] [] [[1]] = .ok qz ∧ qz.length = optB.layers) :=
  claim_C1_layer_alignment optB oneE enc1 enc1 mkZ mkZ mkZ mkZ mkZ mkZ
    priorB postB [[1]] [] [] [] [[1]] rfl rfl rfl rfl

/-- Claim C3: for each layer `i`, `NeuralPrior.forward` refines the `i`-th context
residually (`relu(context_projector_i(ctx)) + ctx`), pools it under the
padding mask, records the pooled vector as `encoder_meaning[i]`, and emits
`p_z[i]` whose mean/std are the mean/var projections of exactly that
recorded pooled vector (std via `exp(0.5·logvar)`). -/
theorem claim_C3_prior_layer_pipeline
    (opt : Options) (E : ℚ → ℚ)
    (encP : List (List ℤ) → Bool → List Ctx)
    (mkM mkV mkC : ℕ → Linear) (p : NeuralPrior)
    (input : List (List ℤ)) (context : List Vec)
    (em : List (List Vec)) (pz : List NormalDist)
    (i : ℕ) (ctxi : Ctx)
    (hp : NeuralPrior.init opt E encP mkM mkV mkC = .ok p)
    (hfwd : p.forward input context = .ok (em, pz))
    (hi : (p.encoder (p.trimmedInput input) false)[i]? = some ctxi) :
    em[i]? = some (mean_with_mask (refineCtx (mkC i) ctxi)
      (padMask (p.trimmedInput input))) ∧
    pz[i]? = some (layerNormal E (mkM i) (mkV i)
      (mean_with_mask (refineCtx (mkC i) ctxi)
        (padMask (p.trimmedInput input)))) := by
  obtain rfl : (⟨opt, E, encP, (List.range opt.layers).map mkC,
      (List.range opt.layers).map mkM,
      (List.range opt.layers).map mkV⟩ : NeuralPrior) = p :=
    Except.ok.inj hp
  simp only [NeuralPrior.forward, NeuralPrior.forwardBody] at hfwd
  obtain ⟨cp, mp, vp, h1, h2, h3, h4, h5⟩ :=
    priorLoop_get E _ _ _ _ _ em pz hfwd i ctxi hi
  have hiN : i < opt.layers := by
    by_contra hge
    rw [List.getElem?_eq_none (by simpa using Nat.le_of_not_lt hge)] at h1
    exact absurd h1 (by simp)
  rw [List.getElem?_map, List.getElem?_range hiN] at h1 h2 h3
  obtain rfl : mkC i = cp := by simpa using h1
  obtain rfl : mkM i = mp := by simpa using h2
  obtain rfl : mkV i = vp := by simpa using h3
  exact ⟨h4, h5⟩

/-- Witness for C3 on the base one-layer prior. -/
theorem claim_C3_witness :
    ∃ em pz,
      priorB.forward [[1]] [] = .ok (em, pz) ∧
      (priorB.encoder (priorB.trimmedInput [[1]]) false)[0]? = some [[[0]]] ∧
      em[0]? = some (mean_with_mask (refineCtx (mkZ 0) [[[0]]])
        (padMask (priorB.trimmedInput [[1]]))) ∧
      pz[0]? = some (layerNormal oneE (mkZ 0) (mkZ 0)
        (mean_with_mask (refineCtx (mkZ 0) [[[0]]])
          (padMask (priorB.trimmedInput [[1]])))) := by
  refine ⟨[mean_with_mask (refineCtx zLin [[[0]]]) (padMask [[1]])],
    [layerNormal oneE zLin zLin
      (mean_with_mask (refineCtx zLin [[[0]]]) (padMask [[1]]))], rfl, rfl, ?_⟩
  exact claim_C3_prior_layer_pipeline optB oneE enc1 mkZ mkZ mkZ priorB
    [[1]] [] _ _ 0 [[[0]]] rfl rfl rfl

/-- Claim C4: every std entry of every distribution emitted by either component is
the backend exponential of half a log-variance-projector output, hence
strictly positive whenever the exponential is. -/
theorem claim_C4_positive_std
    (p : NeuralPrior) (q : NeuralPosterior)
    (input : List (List ℤ)) (context : List Vec)
    (em' : List (List Vec)) (src tgt : List (List ℤ))
    (em : List (List Vec)) (pz qz : List NormalDist)
    (hEp : ∀ x, 0 < p.E x) (hEq : ∀ x, 0 < q.E x)
    (hp : p.forward input context = .ok (em, pz))
    (hq : q.forward em' src tgt = .ok qz) :
    (∀ d ∈ pz, (∃ (vp : Linear) (pooled : List Vec),
        d.std = (pooled.map vp.apply).map
          (fun w => w.map (fun x => p.E (1 / 2 * x)))) ∧
      ∀ row ∈ d.std, ∀ x ∈ row, 0 < x) ∧
    (∀ d ∈ qz, (∃ (vp : Linear) (combined : List Vec),
        d.std = (combined.map vp.apply).map
          (fun w => w.map (fun x => q.E (1 / 2 * x)))) ∧
      ∀ row ∈ d.std, ∀ x ∈ row, 0 < x) := by
  constructor
  · intro d hd
    simp only [NeuralPrior.forward, NeuralPrior.forwardBody] at hp
    obtain ⟨cp, mp, vp, ctx, rfl⟩ := priorLoop_mem p.E _ _ _ _ _ em pz hp d hd
    refine ⟨⟨vp, mean_with_mask (refineCtx cp ctx) _, rfl⟩, ?_⟩
    intro row hrow x hx
    simp only [layerNormal, List.mem_map] at hrow
    obtain ⟨w, _, rfl⟩ := hrow
    obtain ⟨lv, _, rfl⟩ := List.mem_map.mp hx
    exact hEp _
  · intro d hd
    simp only [NeuralPosterior.forward, NeuralPosterior.forwardBody] at hq
    obtain ⟨pj, mp, vp, ctx, rfl⟩ :=
      posteriorLoop_mem q.E _ _ _ _ _ qz hq d hd
    refine ⟨⟨vp, (mean_with_mask ctx _).map
      (fun v => (pj.apply v).map (elu q.E)), rfl⟩, ?_⟩
    intro row hrow x hx
    simp only [layerNormal, List.mem_map] at hrow
    obtain ⟨w, _, rfl⟩ := hrow
    obtain ⟨lv, _, rfl⟩ := List.mem_map.mp hx
    exact hEq _

/-- Witness for C4 on the base one-layer prior and posterior. -/
theorem claim_C4_witness :
    (∀ x, (0 : ℚ) < priorB.E x) ∧
    (∀ d ∈ [layerNormal oneE zLin zLin
        (mean_with_mask (refineCtx zLin [[[0]]]) (padMask [[1]]))],
      (∃ (vp : Linear) (pooled : List Vec),
        NormalDist.std d = (pooled.map vp.apply).map
          (fun w => w.map (fun x => priorB.E (1 / 2 * x)))) ∧
      ∀ row ∈ NormalDist.std d, ∀ x ∈ row, 0 < x) :=
  ⟨fun _ => one_pos,
   (claim_C4_positive_std priorB postB [[1]] [] [] [] [[1]]
      [mean_with_mask (refineCtx zLin [[[0]]]) (padMask [[1]])]
      [layerNormal oneE zLin zLin
        (mean_with_mask (refineCtx zLin [[[0]]]) (padMask [[1]]))]
      [layerNormal oneE zLin zLin
        ((mean_with_mask [[[0]]] (padMask [[1]])).map
          (fun v => (zLin.apply v).map (elu oneE)))]
      (fun _ => one_pos) (fun _ => one_pos) rfl rfl).1⟩

/-- Claim C7: with the source-trimming flag set, `NeuralPrior.forward` drops column
0 of the id batch before both the encoder call and the mask computation; with
it unset, the full batch is used.  The same law holds for the target-trimming
flag in `NeuralPosterior.forward`, whose mask is likewise derived from the
trimmed target. -/
theorem claim_C7_first_token_trimming
    (p : NeuralPrior) (q : NeuralPosterior)
    (input : List (List ℤ)) (context : List Vec)
    (em : List (List Vec)) (src tgt : List (List ℤ)) :
    (p.opt.var_ignore_first_source_token = true →
      p.forward input context =
        priorLoop p.E (padMask (input.map (fun r => r.tail)))
          (p.encoder (input.map (fun r => r.tail)) false)
          p.context_projector p.mean_predictor p.var_predictor) ∧
    (p.opt.var_ignore_first_source_token = false →
      p.forward input context =
        priorLoop p.E (padMask input) (p.encoder input false)
          p.context_projector p.mean_predictor p.var_predictor) ∧
    (q.opt.var_ignore_first_target_token = true →
      q.forward em src tgt =
        posteriorLoop q.E (padMask (tgt.map (fun r => r.tail)))
          (q.encoder (tgt.map (fun r => r.tail)) true)
          q.projector q.mean_predictor q.var_predictor) ∧
    (q.opt.var_ignore_first_target_token = false →
      q.forward em src tgt =
        posteriorLoop q.E (padMask tgt) (q.encoder tgt true)
          q.projector q.mean_predictor q.var_predictor) := by
  refine ⟨fun h => ?_, fun h => ?_, fun h => ?_, fun h => ?_⟩ <;>
    simp [NeuralPrior.forward, NeuralPrior.forwardBody, NeuralPrior.trimmedInput,
      NeuralPosterior.forward, NeuralPosterior.forwardBody,
      NeuralPosterior.trimmedTgt, h]

/-- Witness for C7: a flagged prior/posterior on a 5-token sequence encodes
only the trailing 4 tokens; unflagged ones use all 5. -/
theorem claim_C7_witness :
    (priorSrcTrim.opt.var_ignore_first_source_token = true ∧
      priorSrcTrim.forward [[9, 8, 7, 6, 5]] [] =
        priorLoop oneE (padMask [[8, 7, 6, 5]]) (enc1 [[8, 7, 6, 5]] false)
          [zLin] [zLin] [zLin]) ∧
    (priorB.opt.var_ignore_first_source_token = false ∧
      priorB.forward [[9, 8, 7, 6, 5]] [] =
        priorLoop oneE (padMask [[9, 8, 7, 6, 5]]) (enc1 [[9, 8, 7, 6, 5]] false)
          [zLin] [zLin] [zLin]) ∧
    (postTgtTrim.opt.var_ignore_first_target_token = true ∧
      postTgtTrim.forward [] [] [[9, 8, 7, 6, 5]] =
        posteriorLoop oneE (padMask [[8, 7, 6, 5]]) (enc1 [[8, 7, 6, 5]] true)
          [zLin] [zLin] [zLin]) ∧
    (postB.opt.var_ignore_first_target_token = false ∧
      postB.forward [] [] [[9, 8, 7, 6, 5]] =
        posteriorLoop oneE (padMask [[9, 8, 7, 6, 5]]) (enc1 [[9, 8, 7, 6, 5]] true)
          [zLin] [zLin] [zLin]) :=
  ⟨⟨rfl, (claim_C7_first_token_trimming priorSrcTrim postB
      [[9, 8, 7, 6, 5]] [] [] [] [[9, 8, 7, 6, 5]]).1 rfl⟩,
   ⟨rfl, (claim_C7_first_token_trimming priorB postB
      [[9, 8, 7, 6, 5]] [] [] [] [[9, 8, 7, 6, 5]]).2.1 rfl⟩,
   ⟨rfl, (claim_C7_first_token_trimming priorB postTgtTrim
      [[9, 8, 7, 6, 5]] [] [] [] [[9, 8, 7, 6, 5]]).2.2.1 rfl⟩,
   ⟨rfl, (claim_C7_first_token_trimming priorB postB
      [[9, 8, 7, 6, 5]] [] [] [] [[9, 8, 7, 6, 5]]).2.2.2 rfl⟩⟩

/-- Claim C8 counterexample: as stated, the claim requires every stack/layer-count
mismatch to fail fatally; but with two configured layers and a one-layer
stack, `NeuralPrior.forward` silently succeeds with length-1 outputs. -/
theorem claim_C8_counterexample :
    opt2.layers = 2 ∧
    priorShort.forward [[1]] [] =
      .ok ([mean_with_mask (refineCtx zLin [[[0]]]) (padMask [[1]])],
        [layerNormal oneE zLin zLin
          (mean_with_mask (refineCtx zLin [[[0]]]) (padMask [[1]]))]) :=
  ⟨rfl, rfl⟩

/-- Claim C8 amended: forward performs no layer-count check.  A stack shorter than
the configured layer count silently yields output lists of the stack's
length; a stack longer than the layer count fails with a bare index error
that reports neither the expected nor the actual count.  (Same behavior for
both components.) -/
theorem claim_C8_amended
    (opt : Options) (E : ℚ → ℚ)
    (encP encQ : List (List ℤ) → Bool → List Ctx)
    (mkM mkV mkC mkPj mkM2 mkV2 : ℕ → Linear)
    (p : NeuralPrior) (q : NeuralPosterior)
    (input : List (List ℤ)) (context : List Vec)
    (em' : List (List Vec)) (src tgt : List (List ℤ))
    (hp : NeuralPrior.init opt E encP mkM mkV mkC = .ok p)
    (hq : NeuralPosterior.init opt E encQ mkPj mkM2 mkV2 = .ok q) :
    ((p.encoder (p.trimmedInput input) false).length < opt.layers →
      ∃ em pz, p.forward input context = .ok (em, pz) ∧
        em.length = (p.encoder (p.trimmedInput input) false).length ∧
        pz.length = (p.encoder (p.trimmedInput input) false).length) ∧
    (opt.layers < (p.encoder (p.trimmedInput input) false).length →
      p.forward input context = .error "IndexError") ∧
    ((q.encoder (q.trimmedTgt tgt) true).length < opt.layers →
      ∃ qz, q.forward em' src tgt = .ok qz ∧
        qz.length = (q.encoder (q.trimmedTgt tgt) true).length) ∧
    (opt.layers < (q.encoder (q.trimmedTgt tgt) true).length →
      q.forward em' src tgt = .error "IndexError") := by
  obtain rfl : (⟨opt, E, encP, (List.range opt.layers).map mkC,
      (List.range opt.layers).map mkM,
      (List.range opt.layers).map mkV⟩ : NeuralPrior) = p :=
    Except.ok.inj hp
  rcases hql : posteriorInitLoop opt.var_posterior_combine mkPj mkM2 mkV2
      (List.range opt.layers) with e | pr
  · rw [NeuralPosterior.init, hql] at hq
    exact absurd hq (by simp)
  obtain ⟨pjs, mps, vps⟩ := pr
  rw [NeuralPosterior.init, hql] at hq
  obtain rfl : (⟨opt, E, encQ, pjs, mps, vps⟩ : NeuralPosterior) = q :=
    Except.ok.inj hq
  obtain ⟨hpl, hml, hvl⟩ :=
    posteriorInitLoop_lengths opt.var_posterior_combine mkPj mkM2 mkV2
      (List.range opt.layers) pjs mps vps hql
  refine ⟨fun h => ?_, fun h => ?_, fun h => ?_, fun h => ?_⟩
  · obtain ⟨em, pz, hloop, hl1, hl2⟩ :=
      priorLoop_ok_of_le E (padMask (NeuralPrior.trimmedInput _ input))
        (encP (NeuralPrior.trimmedInput _ input) false)
        ((List.range opt.layers).map mkC) ((List.range opt.layers).map mkM)
        ((List.range opt.layers).map mkV)
        (by simpa using Nat.le_of_lt h) (by simpa using Nat.le_of_lt h)
        (by simpa using Nat.le_of_lt h)
    exact ⟨em, pz,
      by simpa [NeuralPrior.forward, NeuralPrior.forwardBody] using hloop,
      hl1, hl2⟩
  · simp only [NeuralPrior.forward, NeuralPrior.forwardBody]
    exact priorLoop_error_of_lt E _ _ _ _ _ (Or.inl (by simpa using h))
  · obtain ⟨qz, hloop, hl⟩ :=
      posteriorLoop_ok_of_le E (padMask (NeuralPosterior.trimmedTgt _ tgt))
        (encQ (NeuralPosterior.trimmedTgt _ tgt) true) pjs mps vps
        (by rw [hpl, List.length_range]; exact Nat.le_of_lt h)
        (by rw [hml, List.length_range]; exact Nat.le_of_lt h)
        (by rw [hvl, List.length_range]; exact Nat.le_of_lt h)
    exact ⟨qz,
      by simpa [NeuralPosterior.forward, NeuralPosterior.forwardBody] using hloop,
      hl⟩
  · simp only [NeuralPosterior.forward, NeuralPosterior.forwardBody]
    exact posteriorLoop_error_of_lt E _ _ pjs mps vps
      (Or.inl (by rw [hpl, List.length_range]; exact h))

/-- Witness for the amended C8: a long stack on an init-built one-layer
prior raises the index error. -/
theorem claim_C8_witness :
    optB.layers < (priorLong.encoder (priorLong.trimmedInput [[1]]) false).length ∧
    priorLong.forward [[1]] [] = .error "IndexError" :=
  ⟨by decide,
   (claim_C8_amended optB oneE enc2 enc1 mkZ mkZ mkZ mkZ mkZ mkZ
      priorLong postB [[1]] [] [] [] [[1]] rfl rfl).2.1 (by decide)⟩

end DVT
